import Mathlib

/-!
Verification development for the iterative review-convergence engine of the
code_review repository.  The definitions below are shallow embeddings of the
Python functions in `iterative_improvement_loop.py` (the top-level module) and
`core/iterative_improvement_loop.py` (the core module), both of which define an
`IterativeImprovementLoop` class.  Strings are modelled as Lean `String`
(UTF-8 character lists); machine integers do not occur.  Remote Azure DevOps
calls are modelled by an oracle structure describing, per call index, whether
the call succeeds and what it returns; Python exceptions are modelled with
`Except`.
-/

/-! ## Character and string utilities (Python `str` semantics) -/

/-- The set matched by Python regular-expression `\s` and stripped by
`str.strip()` for the ASCII inputs handled here. -/
def isSpaceChar (c : Char) : Bool :=
  c = ' ' || c = '\t' || c = '\n' || c = '\r' || c = '\x0b' || c = '\x0c'

/-- Characters matched by regular-expression `\w` (ASCII). -/
def isWordChar (c : Char) : Bool :=
  c.isAlphanum || c = '_'

/-- Case-insensitive character comparison, as under `re.IGNORECASE`. -/
def lcEq (a b : Char) : Bool :=
  a.toLower = b.toLower

/-- The backtick character, written numerically. -/
def backtickChar : Char := Char.ofNat 96

/-- Python `text.split('\n')` on a character list. -/
def splitOnNl : List Char → List (List Char)
  | [] => [[]]
  | c :: cs =>
    if c = '\n' then [] :: splitOnNl cs
    else
      match splitOnNl cs with
      | [] => [[c]]
      | l :: ls => (c :: l) :: ls

/-- Python `'\n'.join(pieces)`. -/
def joinNl : List (List Char) → List Char
  | [] => []
  | [l] => l
  | l :: ls => l ++ '\n' :: joinNl ls

/-- Python `str.strip()` (whitespace from both ends). -/
def pyStrip (l : List Char) : List Char :=
  ((l.dropWhile isSpaceChar).reverse.dropWhile isSpaceChar).reverse

/-- Python `str.strip("# ")`: remove `#` and space characters from both ends. -/
def stripHashSpace (l : List Char) : List Char :=
  ((l.dropWhile fun c => c = '#' || c = ' ').reverse.dropWhile
    fun c => c = '#' || c = ' ').reverse

/-- Python `needle in hay` substring test on character lists. -/
def needleIn (needle : List Char) : List Char → Bool
  | [] => needle.isEmpty
  | c :: t => needle.isPrefixOf (c :: t) || needleIn needle t

/-- Python `needle in hay` on strings. -/
def hasInfixStr (needle hay : String) : Bool :=
  needleIn needle.data hay.data

/-- Numeric value of a run of decimal digits (Python `int` on the match). -/
def digitsVal : List Char → Nat → Nat
  | [], acc => acc
  | c :: cs, acc => digitsVal cs (acc * 10 + (c.toNat - 48))

/-! ## Line-number token search

The top-level module extracts line numbers with
`re.search(r'line[s]?\s*(\d+)(?:\s*-\s*(\d+))?', text, re.IGNORECASE)` and
takes `group(1)`; the core module uses `re.search(r'line (\d+)', text,
re.IGNORECASE)`.  `re.search` scans start positions left to right; at each
position the greedy `\w`/`\s` runs below are exact because a shorter run would
be followed by a character of the same class, which cannot match the next
pattern element. -/

/-- Match `\s*(\d+)` at the head of the list and return group 1. -/
def matchSpacesDigits (cs : List Char) : Option Nat :=
  let rest := cs.dropWhile isSpaceChar
  let ds := rest.takeWhile fun c => c.isDigit
  if ds.isEmpty then none else some (digitsVal ds 0)

/-- Match `line[s]?\s*(\d+)` case-insensitively at the head of the list
(the trailing optional range group never affects group 1). -/
def matchLineTop : List Char → Option Nat
  | l :: i :: n :: e :: rest =>
    if lcEq l 'l' && lcEq i 'i' && lcEq n 'n' && lcEq e 'e' then
      match rest with
      | s :: r =>
        if lcEq s 's' then
          match matchSpacesDigits r with
          | some v => some v
          | none => matchSpacesDigits rest
        else matchSpacesDigits rest
      | [] => none
    else none
  | _ => none

/-- `re.search` scan for the top-level pattern. -/
def searchLineTop : List Char → Option Nat
  | [] => none
  | c :: cs =>
    match matchLineTop (c :: cs) with
    | some v => some v
    | none => searchLineTop cs

/-- Top-level line extraction: first match of the token, defaulting to 1
(`int(m.group(1)) if m else 1`). -/
def lineOfTextTop (cs : List Char) : Nat :=
  (searchLineTop cs).getD 1

/-- Match `line (\d+)` (one literal space) case-insensitively at the head. -/
def matchLineCore : List Char → Option Nat
  | l :: i :: n :: e :: sp :: rest =>
    if lcEq l 'l' && lcEq i 'i' && lcEq n 'n' && lcEq e 'e' && sp = ' ' then
      let ds := rest.takeWhile fun c => c.isDigit
      if ds.isEmpty then none else some (digitsVal ds 0)
    else none
  | _ => none

/-- `re.search` scan for the core pattern. -/
def searchLineCore : List Char → Option Nat
  | [] => none
  | c :: cs =>
    match matchLineCore (c :: cs) with
    | some v => some v
    | none => searchLineCore cs

/-! ## `_extract_issues` — top-level module (lines 262-310)

Scans the critique line by line: `## ...` headers reset the current section
(after `strip("# ")`); a `- ` bullet under a non-empty section yields one
issue from the bullet text alone (continuation lines are ignored), with the
line number from `lineOfTextTop`. -/

structure TIssue where
  sectionName : String
  text : String
  line : Nat
deriving DecidableEq

def extractIssuesTopGo : List (List Char) → List Char → List TIssue
  | [], _ => []
  | l :: ls, sec =>
    if ['#', '#'].isPrefixOf l then
      extractIssuesTopGo ls (stripHashSpace l)
    else if ['-', ' '].isPrefixOf l && !sec.isEmpty then
      let text := l.drop 2
      { sectionName := String.mk sec, text := String.mk text,
        line := lineOfTextTop text } :: extractIssuesTopGo ls sec
    else extractIssuesTopGo ls sec

def extractIssuesTop (analysis : String) : List TIssue :=
  extractIssuesTopGo (splitOnNl analysis.data) []

/-! ## `_extract_issues` — core module (lines 223-295)

Accumulates bullet text across continuation lines; a pending issue is flushed
only when the next bullet starts or at end of input (notably *not* when a
header line changes the section, so a flushed issue carries whatever section
is current at flush time).  An issue is kept only when `re.search(r'line
(\d+)')` finds a truthy (non-zero) line number. -/

structure CIssue where
  sectionName : String
  text : String
  line : Nat
deriving DecidableEq

/-- Flush the accumulated issue text (`if current_issue_text: ... if
line_number: issues.append(...)`). -/
def flushCore (sec txt : List Char) : List CIssue :=
  if txt.isEmpty then []
  else
    match searchLineCore txt with
    | some n =>
      if n = 0 then []
      else [{ sectionName := String.mk sec, text := String.mk (pyStrip txt), line := n }]
    | none => []

def extractIssuesCoreGo : List (List Char) → List Char → List Char → List CIssue
  | [], sec, txt => flushCore sec txt
  | l :: ls, sec, txt =>
    if ['#', '#', ' '].isPrefixOf l then
      extractIssuesCoreGo ls (pyStrip (l.drop 3)) txt
    else
      let stripped := pyStrip l
      if ['-', ' '].isPrefixOf stripped then
        flushCore sec txt ++ extractIssuesCoreGo ls sec (stripped.drop 2)
      else if !txt.isEmpty then
        extractIssuesCoreGo ls sec (txt ++ ' ' :: stripped)
      else
        extractIssuesCoreGo ls sec txt

def extractIssuesCore (analysis : String) : List CIssue :=
  extractIssuesCoreGo (splitOnNl analysis.data) [] []

example :
    extractIssuesTop "## Bugs\n- Null check missing on line 12\n## Style\n- Prefer snake_case on line 5" =
      [{ sectionName := "Bugs", text := "Null check missing on line 12", line := 12 },
       { sectionName := "Style", text := "Prefer snake_case on line 5", line := 5 }] := by
  decide

example :
    extractIssuesCore "## Bugs\n- Null check missing on line 12\n## Style\n- Prefer snake_case on line 5" =
      [{ sectionName := "Style", text := "Null check missing on line 12", line := 12 },
       { sectionName := "Style", text := "Prefer snake_case on line 5", line := 5 }] := by
  decide

/-! ## `_extract_code_suggestions` — top-level module (lines 312-336)

Splits the analysis at `##\s+` headings, collects fenced blocks at odd split
indices from sections titled `code suggestions` / `suggested changes`, and
then appends every fenced block found by `re.findall(r'```` `\w*\n(.*?)` ````',
analysis, re.DOTALL)` that is not already present.  The regex scans are
embedded with a fuel argument bounded by the input length (each step consumes
at least one character), so the fallback branches are never reached. -/

/-- One `re.split(r'##\s+', ...)` scan step: on a non-match the scan advances
one character.  `acc` holds the current piece reversed. -/
def splitHashFuel : Nat → List Char → List Char → List (List Char)
  | 0, rest, acc => [acc.reverse ++ rest]
  | _ + 1, [], acc => [acc.reverse]
  | fuel + 1, c :: cs, acc =>
    match c :: cs with
    | '#' :: '#' :: rest =>
      if (rest.takeWhile isSpaceChar).isEmpty then
        splitHashFuel fuel cs (c :: acc)
      else acc.reverse :: splitHashFuel fuel (rest.dropWhile isSpaceChar) []
    | _ => splitHashFuel fuel cs (c :: acc)

def splitHash (cs : List Char) : List (List Char) :=
  splitHashFuel (cs.length + 1) cs []

/-- Test for the three-backtick fence at the head, returning the rest. -/
def fenceAt : List Char → Option (List Char)
  | a :: b :: c :: rest =>
    if a = backtickChar && b = backtickChar && c = backtickChar then some rest
    else none
  | _ => none

/-- `re.split` on the fence pattern (first alternative: fence, word run,
newline; second: bare fence). -/
def fenceSplitFuel : Nat → List Char → List Char → List (List Char)
  | 0, rest, acc => [acc.reverse ++ rest]
  | _ + 1, [], acc => [acc.reverse]
  | fuel + 1, c :: cs, acc =>
    match fenceAt (c :: cs) with
    | some rest =>
      match rest.dropWhile isWordChar with
      | '\n' :: r2 => acc.reverse :: fenceSplitFuel fuel r2 []
      | _ => acc.reverse :: fenceSplitFuel fuel rest []
    | none => fenceSplitFuel fuel cs (c :: acc)

def fenceSplit (cs : List Char) : List (List Char) :=
  fenceSplitFuel (cs.length + 1) cs []

/-- Elements at odd indices (`range(1, len, 2)`). -/
def oddIdx : List α → List α
  | _ :: b :: rest => b :: oddIdx rest
  | _ => []

/-- Lazy capture of `(.*?)` up to the next closing fence. -/
def takeUntilFence : List Char → Option (List Char × List Char)
  | [] => none
  | c :: cs =>
    match fenceAt (c :: cs) with
    | some rest => some ([], rest)
    | none =>
      match takeUntilFence cs with
      | some (cap, r) => some (c :: cap, r)
      | none => none

/-- `re.findall` scan for fenced code blocks (DOTALL); a position where no
closing fence follows is skipped by advancing one character. -/
def findBlocksFuel : Nat → List Char → List (List Char)
  | 0, _ => []
  | _ + 1, [] => []
  | fuel + 1, c :: cs =>
    match fenceAt (c :: cs) with
    | some rest =>
      match rest.dropWhile isWordChar with
      | '\n' :: r2 =>
        match takeUntilFence r2 with
        | some (cap, rest2) => cap :: findBlocksFuel fuel rest2
        | none => findBlocksFuel fuel cs
      | _ => findBlocksFuel fuel cs
    | none => findBlocksFuel fuel cs

def findBlocks (cs : List Char) : List (List Char) :=
  findBlocksFuel (cs.length + 1) cs

def codeSuggestionsTitle : String := "code suggestions"
def suggestedChangesTitle : String := "suggested changes"

def extractCodeSuggestions (analysis : String) : List String :=
  let cs := analysis.data
  let sections := splitHash cs
  let fromSections := sections.foldl
    (fun acc sect =>
      let low := sect.map Char.toLower
      if codeSuggestionsTitle.data.isPrefixOf low ||
          suggestedChangesTitle.data.isPrefixOf low then
        let lns := splitOnNl sect
        let sugText := joinNl (lns.drop 1)
        acc ++ (oddIdx (fenceSplit sugText)).map pyStrip
      else acc)
    []
  let withBlocks := (findBlocks cs).foldl
    (fun acc b => if acc.contains b then acc else acc ++ [pyStrip b])
    fromSections
  withBlocks.map String.mk

example : extractCodeSuggestions "```\nfoo\n```" = ["foo"] := by decide

example : extractCodeSuggestions "## Bugs\n- a problem on line 3" = [] := by decide

example :
    extractCodeSuggestions "## Code Suggestions\n```python\nx = 1\n```" =
      ["x = 1", "x = 1"] := by decide

/-! ## Python dicts and remote-store oracle

`issue_threads` and friends are Python dicts from string keys to thread ids;
they are modelled as association lists with Python dict semantics (assignment
overwrites in place, insertion appends).  Remote Azure DevOps calls are
modelled by `StoreOracle`: for every operation kind, the n-th call of that
kind either succeeds (returning the listed threads or a fresh thread id) or
raises. -/

def dictFind (d : List (String × Nat)) (k : String) : Option Nat :=
  match d with
  | [] => none
  | (k0, v0) :: rest => if k0 = k then some v0 else dictFind rest k

def dictInsert : List (String × Nat) → String → Nat → List (String × Nat)
  | [], k, v => [(k, v)]
  | (k0, v0) :: rest, k, v =>
    if k0 = k then (k0, v) :: rest else (k0, v0) :: dictInsert rest k v

/-- Python `d.update(d2)`. -/
def dictInsertAll (d : List (String × Nat)) : List (String × Nat) → List (String × Nat)
  | [] => d
  | (k, v) :: rest => dictInsertAll (dictInsert d k v) rest

/-- A remote pull-request thread as read back from the store: its file path
and right-file line (absent when the thread has no context), the content of
its first comment (absent when it has none), and its id. -/
structure RThread where
  filePath : Option String
  line : Option Nat
  firstComment : Option String
  id : Nat
deriving DecidableEq

/-- Counts of remote and capability calls made so far; the store oracle is
indexed by these counters, so each call of a kind can behave differently. -/
structure Stats where
  lists : Nat
  creates : Nat
  comments : Nat
  statuses : Nat
deriving DecidableEq

def zeroStats : Stats := ⟨0, 0, 0, 0⟩

/-- Behaviour of the remote thread store: for the n-th call of each kind,
whether it succeeds, and the data it returns when it does. -/
structure StoreOracle where
  listOk : Nat → Bool
  listThreads : Nat → List RThread
  createOk : Nat → Bool
  createId : Nat → Nat
  commentOk : Nat → Bool
  statusOk : Nat → Bool

/-- All remote calls succeed. -/
def StoreAllOk (store : StoreOracle) : Prop :=
  ∀ n, store.listOk n = true ∧ store.createOk n = true ∧
    store.commentOk n = true ∧ store.statusOk n = true

/-! ## `_post_review_comments_to_pr` — top-level module (lines 421-548)

Fetches the existing threads of the pull request (a failure is caught and
leaves the index empty), keys them by `f"{file_path}:{right_line or 1}"`,
posts a summary thread, and then, for each issue parsed from the analysis
(the method re-runs exactly the `_extract_issues` scan inline), either adds a
comment to the thread at the issue's location key or creates a new thread.
Newly created threads are not added to the location index, and every
per-issue failure is caught (skipping only the dict assignment). -/

/-- `right_line or 1`. -/
def rlineOr1 : Option Nat → Nat
  | some (n + 1) => n + 1
  | _ => 1

/-- Location index of the fetched threads (`f"{file_path}:{line}" -> id`),
keeping only threads with a context on this file. -/
def buildExisting (file : String) : List RThread → List (String × Nat) → List (String × Nat)
  | [], acc => acc
  | t :: ts, acc =>
    match t.filePath with
    | some fp =>
      if fp = file then
        buildExisting file ts
          (dictInsert acc (file ++ ":" ++ toString (rlineOr1 t.line)) t.id)
      else buildExisting file ts acc
    | none => buildExisting file ts acc

/-- The `existing_threads` index built at the start of the call; the fetch
failure is caught and yields an empty index. -/
def topFetchExisting (store : StoreOracle) (stats0 : Stats) (file : String) :
    List (String × Nat) :=
  buildExisting file
    (if store.listOk stats0.lists then store.listThreads stats0.lists else []) []

/-- Identity key `f"{file_path}:{line}:{section}"` used by the top-level
module. -/
def tKey (file : String) (line : Nat) (sec : String) : String :=
  file ++ ":" ++ toString line ++ ":" ++ sec

/-- Location key `f"{file_path}:{line}"`. -/
def tLocKey (file : String) (line : Nat) : String :=
  file ++ ":" ++ toString line

structure TopPostOut where
  map : List (String × Nat)
  created : List (String × Nat)
  stats : Stats
deriving DecidableEq

/-- The per-issue loop of the top-level `_post_review_comments_to_pr`.
`created` records, in order, the issue key and thread id of every thread
creation that succeeded (the remote side effect the source only logs). -/
def topPostIssues (store : StoreOracle) (existing : List (String × Nat))
    (file : String) :
    List TIssue → List (String × Nat) → List (String × Nat) → Stats → TopPostOut
  | [], map, created, stats => ⟨map, created, stats⟩
  | issue :: rest, map, created, stats =>
    let key := tKey file issue.line issue.sectionName
    let lockey := tLocKey file issue.line
    match dictFind existing lockey with
    | some tid =>
      let ok := store.commentOk stats.comments
      let stats1 := { stats with comments := stats.comments + 1 }
      let map1 := if ok then dictInsert map key tid else map
      topPostIssues store existing file rest map1 created stats1
    | none =>
      let ok := store.createOk stats.creates
      let tid := store.createId stats.creates
      let stats1 := { stats with creates := stats.creates + 1 }
      if ok then
        topPostIssues store existing file rest (dictInsert map key tid)
          (created ++ [(key, tid)]) stats1
      else topPostIssues store existing file rest map created stats1

/-- Top-level `_post_review_comments_to_pr`: fetch + location index, summary
thread creation (result unused by the caller), then the per-issue loop over
the inline re-run of the `_extract_issues` scan. -/
def topPost (store : StoreOracle) (stats0 : Stats) (file analysis : String)
    (_iteration : Nat) : TopPostOut :=
  let existing := topFetchExisting store stats0 file
  let stats1 := { stats0 with lists := stats0.lists + 1 }
  let stats2 := { stats1 with creates := stats1.creates + 1 }
  topPostIssues store existing file (extractIssuesTop analysis) [] [] stats2

/-! ## The per-iteration resolution block — top-level module (lines 122-148)

At iteration > 1 (with comment posting enabled) the loop walks the tracked
thread keys; every key absent from the current key set and not yet in the
resolved set is added to the resolved set and its thread is marked `fixed`
remotely (the remote calls are wrapped in try/except; the set insertion
happens before them). -/

/-- The ledger-only content of the block: the list of keys newly marked, in
order.  The growing resolved set is threaded through, mirroring
`resolved_issues.add` during the walk. -/
def topResolveList (cur res : List String) : List (String × Nat) → List String
  | [] => []
  | (k, _) :: rest =>
    if k ∉ cur ∧ k ∉ res then k :: topResolveList cur (res ++ [k]) rest
    else topResolveList cur res rest

/-- The full block with the remote calls threaded through the store oracle:
returns the resolved set after the walk, the keys marked, and the updated
call counters.  The status update is attempted for every marked key; the
follow-up comment only when the status call did not raise. -/
def topResolveRemote (store : StoreOracle) :
    List (String × Nat) → List String → List String → Stats →
      List String × List String × Stats
  | [], _, res, stats => (res, [], stats)
  | (k, _) :: rest, cur, res, stats =>
    if k ∉ cur ∧ k ∉ res then
      let s1 := { stats with statuses := stats.statuses + 1 }
      let s2 :=
        if store.statusOk stats.statuses then
          { s1 with comments := s1.comments + 1 }
        else s1
      let out := topResolveRemote store rest cur (res ++ [k]) s2
      (out.1, k :: out.2.1, out.2.2)
    else topResolveRemote store rest cur res stats

/-! ## The resolution ledger across a whole session — top-level module

`runResolve` replays the per-iteration resolution block over the sequence of
iterations of one `improve_code` call: each iteration brings its current key
set and the thread map additions made after the block ran (the block is
skipped at iteration 1).  `marked` accumulates every key for which a
mark-as-fixed update was issued. -/

structure LedgerRun where
  resolved : List String
  threads : List (String × Nat)
  marked : List String
deriving DecidableEq

def runResolveGo : Nat → List (List String × List (String × Nat)) →
    List String → List (String × Nat) → List String → LedgerRun
  | _, [], res, ths, log => ⟨res, ths, log⟩
  | i, (cur, newTh) :: rest, res, ths, log =>
    let m := if 1 < i then topResolveList cur res ths else []
    runResolveGo (i + 1) rest (res ++ m) (dictInsertAll ths newTh) (log ++ m)

def runResolve (iters : List (List String × List (String × Nat))) : LedgerRun :=
  runResolveGo 1 iters [] [] []

/-! ## `improve_code` — top-level module (lines 52-260)

The loop runs `iteration = 1 .. max_iterations`.  Each round invokes the
review graph (the Critic capability), re-extracts issues, runs the resolution
block (iteration > 1, posting enabled), posts comments, extracts code
suggestions, and appends the iteration record.  An empty suggestion list sets
`all_issues_resolved = True` and breaks.  Otherwise
`self._apply_suggestions(current_content, suggestions)` is called with two
arguments although the method declares four mandatory parameters
(`current_content, suggestions, file_path, coder_analysis`), so the call
raises `TypeError` before the method body runs; the uncaught exception
aborts `improve_code`.  After the loop, when all issues were resolved with
comment posting enabled and a non-empty thread map, the cleanup block updates
every tracked thread and then reads the undefined name `remaining_issues`,
raising `NameError`. -/

inductive PyErr
  | typeErr
  | nameErr
  | remoteErr
deriving DecidableEq

instance {ε α : Type} [DecidableEq ε] [DecidableEq α] : DecidableEq (Except ε α) :=
  fun x y =>
    match x, y with
    | Except.error a, Except.error b =>
      if h : a = b then isTrue (by rw [h]) else isFalse (by simp [h])
    | Except.ok a, Except.ok b =>
      if h : a = b then isTrue (by rw [h]) else isFalse (by simp [h])
    | Except.error _, Except.ok _ => isFalse (by simp)
    | Except.ok _, Except.error _ => isFalse (by simp)

/-- External capabilities of the top-level loop: the review graph invoked on
`(iteration, old_content, current_content)`, and the coder agent the
unreachable `_apply_suggestions` body would call. -/
structure TopOracles where
  critic : Nat → String → String → String
  coder : String → String

/-- Mandatory parameters of `_apply_suggestions` after `self` (line 338). -/
def applySuggestionsArity : Nat := 4

/-- Arguments passed at the call site in `improve_code` (line 191). -/
def applySuggestionsCallArgs : Nat := 2

/-- The `_apply_suggestions(current_content, suggestions)` call: Python
checks the arity before entering the body, so the call raises `TypeError`;
the `ok` branch models the never-executed body as a coder-oracle call. -/
def applyTop (o : TopOracles) (cur : String) (_sugs : List String) :
    Except PyErr String :=
  if applySuggestionsCallArgs < applySuggestionsArity then Except.error PyErr.typeErr
  else Except.ok (o.coder cur)

structure TState where
  cur : String
  threads : List (String × Nat)
  resolved : List String
  allResolved : Bool
  records : Nat
  criticCalls : Nat
  fixesCompleted : Nat
  stats : Stats

structure TopFinal where
  iterationsCompleted : Nat
  allIssuesResolved : Bool
  finalContent : String
  threadIds : List Nat
deriving DecidableEq

structure TopRun where
  result : Except PyErr TopFinal
  criticCalls : Nat
  fixesCompleted : Nat
  stats : Stats

/-- One status update per tracked thread (the inner cleanup loop). -/
def statusesForAll (store : StoreOracle) : Stats → List (String × Nat) → Stats
  | stats, [] => stats
  | stats, _ :: rest =>
    let _ := store.statusOk stats.statuses
    statusesForAll store { stats with statuses := stats.statuses + 1 } rest

/-- Remote traffic of the final cleanup block (lines 202-235): the first
tracked item gets a status update and confirmation comment when not yet
resolved, then every tracked thread id gets a status update, and the block
breaks after the first item. -/
def topFinalRemote (store : StoreOracle) (st : TState) : Stats :=
  match st.threads with
  | [] => st.stats
  | (k, _) :: _ =>
    let s1 :=
      if k ∈ st.resolved then st.stats
      else
        let ok := store.statusOk st.stats.statuses
        let sA := { st.stats with statuses := st.stats.statuses + 1 }
        if ok then { sA with comments := sA.comments + 1 } else sA
    statusesForAll store s1 st.threads

/-- Code after the loop: the cleanup block runs exactly when
`all_issues_resolved and post_comments and issue_threads` holds, and then
line 237 reads the undefined `remaining_issues`, raising `NameError`;
otherwise the final result dictionary is returned. -/
def topFinish (store : StoreOracle) (pc : Bool) (st : TState) : TopRun :=
  if st.allResolved = true ∧ pc = true ∧ st.threads ≠ [] then
    { result := Except.error PyErr.nameErr, criticCalls := st.criticCalls,
      fixesCompleted := st.fixesCompleted, stats := topFinalRemote store st }
  else
    let fin : TopFinal :=
      { iterationsCompleted := st.records, allIssuesResolved := st.allResolved,
        finalContent := st.cur, threadIds := st.threads.map Prod.snd }
    { result := Except.ok fin, criticCalls := st.criticCalls,
      fixesCompleted := st.fixesCompleted, stats := st.stats }

/-- The head of one loop round, up to and including the iteration-record
append: critic call, issue extraction, resolution block, comment posting.
Returns the updated state and the critique text. -/
def topIterState (o : TopOracles) (store : StoreOracle) (pc : Bool)
    (file old : String) (i : Nat) (st : TState) : TState × String :=
  let analysis := o.critic i old st.cur
  let st1 := { st with criticCalls := st.criticCalls + 1 }
  let curKeys := (extractIssuesTop analysis).map fun iss =>
    tKey file iss.line iss.sectionName
  let st2 :=
    if pc = true ∧ 1 < i then
      let out := topResolveRemote store st1.threads curKeys st1.resolved st1.stats
      { st1 with resolved := out.1, stats := out.2.2 }
    else st1
  let st3 :=
    if pc = true then
      let out := topPost store st2.stats file analysis i
      { st2 with threads := dictInsertAll st2.threads out.map, stats := out.stats }
    else st2
  ({ st3 with records := st3.records + 1 }, analysis)

def topGo (o : TopOracles) (store : StoreOracle) (pc : Bool) (file old : String) :
    Nat → Nat → TState → TopRun
  | _, 0, st => topFinish store pc st
  | i, fuel + 1, st =>
    let pr := topIterState o store pc file old i st
    let st1 := pr.1
    let sugs := extractCodeSuggestions pr.2
    if sugs.isEmpty then topFinish store pc { st1 with allResolved := true }
    else
      match applyTop o st1.cur sugs with
      | Except.error e =>
        { result := Except.error e, criticCalls := st1.criticCalls,
          fixesCompleted := st1.fixesCompleted, stats := st1.stats }
      | Except.ok improved =>
        let st2 := { st1 with fixesCompleted := st1.fixesCompleted + 1 }
        if improved = st2.cur then topFinish store pc st2
        else topGo o store pc file old (i + 1) fuel { st2 with cur := improved }

def initialTState (init : String) : TState :=
  { cur := init, threads := [], resolved := [], allResolved := false,
    records := 0, criticCalls := 0, fixesCompleted := 0, stats := zeroStats }

/-- Top-level `improve_code(pull_request_id, file_path, old, new,
max_iterations, ..., post_comments)`. -/
def topImprove (o : TopOracles) (store : StoreOracle) (pc : Bool)
    (file old init : String) (maxIterations : Nat) : TopRun :=
  topGo o store pc file old 1 maxIterations (initialTState init)

/-! ## `_post_review_comments_to_pr` — core module (lines 326-446)

Unlike the top-level variant, none of the remote calls here are wrapped in
try/except: a failing `get_pull_request_threads`, `add_pull_request_thread`
or `add_thread_comment` propagates out of the method and aborts
`improve_code`.  A thread is reused when a fetched thread has this file and
line and its first comment contains the section name; the tracking key is
`f"{file_path}:{line_number}:{issue_text}"`. -/

/-- Identity key `f"{file_path}:{line}:{text}"` used by the core module. -/
def cKey (file : String) (line : Nat) (text : String) : String :=
  file ++ ":" ++ toString line ++ ":" ++ text

/-- The existing-thread test of the core module: same file path, same right
line, non-empty comments, and the section name occurs in the first comment. -/
def coreThreadMatches (file : String) (ln : Nat) (sec : String) (t : RThread) : Bool :=
  t.filePath = some file && t.line = some ln &&
    (match t.firstComment with
     | some fc => hasInfixStr sec fc
     | none => false)

/-- First fetched thread matching the issue (the scan breaks at the first
hit). -/
def coreFindThread (file : String) (ln : Nat) (sec : String) :
    List RThread → Option Nat
  | [] => none
  | t :: ts =>
    if coreThreadMatches file ln sec t then some t.id
    else coreFindThread file ln sec ts

/-- Per-issue loop of the core `_post_review_comments_to_pr`; every remote
failure raises. -/
def corePostIssues (store : StoreOracle) (fetched : List RThread) (file : String) :
    List CIssue → List (String × Nat) → Stats →
      Except PyErr (List (String × Nat) × Stats)
  | [], map, stats => Except.ok (map, stats)
  | issue :: rest, map, stats =>
    if issue.line = 0 then corePostIssues store fetched file rest map stats
    else
      let key := cKey file issue.line issue.text
      match coreFindThread file issue.line issue.sectionName fetched with
      | some tid =>
        if store.commentOk stats.comments then
          corePostIssues store fetched file rest (dictInsert map key tid)
            { stats with comments := stats.comments + 1 }
        else Except.error PyErr.remoteErr
      | none =>
        if store.createOk stats.creates then
          corePostIssues store fetched file rest
            (dictInsert map key (store.createId stats.creates))
            { stats with creates := stats.creates + 1 }
        else Except.error PyErr.remoteErr

/-- Core `_post_review_comments_to_pr`: the thread fetch and the summary
thread creation precede the per-issue loop, and a failure of either
propagates. -/
def corePost (store : StoreOracle) (stats0 : Stats) (file analysis : String)
    (_iteration : Nat) : Except PyErr (List (String × Nat) × Stats) :=
  if store.listOk stats0.lists then
    let fetched := store.listThreads stats0.lists
    let stats1 := { stats0 with lists := stats0.lists + 1 }
    if store.createOk stats1.creates then
      let stats2 := { stats1 with creates := stats1.creates + 1 }
      corePostIssues store fetched file (extractIssuesCore analysis) [] stats2
    else Except.error PyErr.remoteErr
  else Except.error PyErr.remoteErr

/-! ## Reconciliation — core module (lines 168-200)

A previous issue is considered resolved when no current issue has exactly the
same description text (`prev_issue['text'] == curr_issue['text']`); the
resolved issues' threads are then looked up under the text-based key and
marked `fixed`, with the remote calls unprotected. -/

/-- The inner flag loop: is some current issue's text equal to this previous
issue's text? -/
def issueStillPresent (p : CIssue) : List CIssue → Bool
  | [] => false
  | c :: rest => if p.text = c.text then true else issueStillPresent p rest

/-- The resolved-issue computation of the core module. -/
def coreResolvedIssues : List CIssue → List CIssue → List CIssue
  | [], _ => []
  | p :: rest, current =>
    if issueStillPresent p current then coreResolvedIssues rest current
    else p :: coreResolvedIssues rest current

/-- Thread-status updates for the resolved issues (lines 183-200); the
status update and confirmation comment raise on failure. -/
def coreMark (store : StoreOracle) (file : String)
    (allThreads : List (String × Nat)) :
    List CIssue → Stats → Except PyErr Stats
  | [], stats => Except.ok stats
  | r :: rest, stats =>
    match dictFind allThreads (cKey file r.line r.text) with
    | some _ =>
      if store.statusOk stats.statuses then
        let s1 := { stats with statuses := stats.statuses + 1 }
        if store.commentOk s1.comments then
          coreMark store file allThreads rest { s1 with comments := s1.comments + 1 }
        else Except.error PyErr.remoteErr
      else Except.error PyErr.remoteErr
    | none => coreMark store file allThreads rest stats

/-! ## `improve_code` — core module (lines 59-221)

Per round: critic, posting (failures propagate), issue extraction, record
append; break when the analysis contains `"No suggestions"` or no issues were
extracted; otherwise apply the fixer, break when the content is unchanged,
then mark the issues resolved relative to the previous round and advance.
After the loop `all_issues_resolved` is `len(current_issues) == 0`; when the
loop body never ran, `current_issues` is undefined and reading it raises
`NameError`. -/

def noSuggestionsMarker : String := "No suggestions"

/-- External capabilities of the core loop: the review graph invoked on
`(iteration, old_content, current_content)` and the coder agent
`apply_suggestions(file_path, content, reviewer_analysis)` invoked on
`(iteration, content, analysis)`. -/
structure CoreOracles where
  critic : Nat → String → String → String
  fixer : Nat → String → String → String

structure CoreState where
  old : String
  cur : String
  prevIssues : List CIssue
  allThreads : List (String × Nat)
  lastIssues : Option (List CIssue)
  records : Nat
  criticCalls : Nat
  fixerCalls : Nat
  stats : Stats

structure CoreFinal where
  iterationsCompleted : Nat
  allIssuesResolved : Bool
  finalContent : String
  threads : List (String × Nat)
deriving DecidableEq

structure CoreRun where
  result : Except PyErr CoreFinal
  criticCalls : Nat
  fixerCalls : Nat
  stats : Stats

/-- Code after the core loop: builds the final result from the last round's
`current_issues` (undefined — `NameError` — when no round ran). -/
def coreFinish (st : CoreState) : CoreRun :=
  match st.lastIssues with
  | none =>
    { result := Except.error PyErr.nameErr, criticCalls := st.criticCalls,
      fixerCalls := st.fixerCalls, stats := st.stats }
  | some iss =>
    let fin : CoreFinal :=
      { iterationsCompleted := st.records, allIssuesResolved := iss.isEmpty,
        finalContent := st.cur, threads := st.allThreads }
    { result := Except.ok fin, criticCalls := st.criticCalls,
      fixerCalls := st.fixerCalls, stats := st.stats }

def coreGo (o : CoreOracles) (store : StoreOracle) (pc : Bool) (file : String) :
    Nat → Nat → CoreState → CoreRun
  | _, 0, st => coreFinish st
  | i, fuel + 1, st =>
    let analysis := o.critic i st.old st.cur
    let st1 := { st with criticCalls := st.criticCalls + 1 }
    match (if pc = true then corePost store st1.stats file analysis i
           else Except.ok ([], st1.stats)) with
    | Except.error e =>
      { result := Except.error e, criticCalls := st1.criticCalls,
        fixerCalls := st1.fixerCalls, stats := st1.stats }
    | Except.ok (imap, stats1) =>
      let st2 := { st1 with
        allThreads := dictInsertAll st1.allThreads imap,
        stats := stats1 }
      let issues := extractIssuesCore analysis
      let st3 := { st2 with lastIssues := some issues, records := st2.records + 1 }
      if hasInfixStr noSuggestionsMarker analysis || issues.isEmpty then
        coreFinish st3
      else
        let improved := o.fixer i st3.cur analysis
        let st4 := { st3 with fixerCalls := st3.fixerCalls + 1 }
        if improved = st4.cur then coreFinish st4
        else
          match (if pc = true ∧ !st4.prevIssues.isEmpty then
                   coreMark store file st4.allThreads
                     (coreResolvedIssues st4.prevIssues issues) st4.stats
                 else Except.ok st4.stats) with
          | Except.error e =>
            { result := Except.error e, criticCalls := st4.criticCalls,
              fixerCalls := st4.fixerCalls, stats := st4.stats }
          | Except.ok stats2 =>
            coreGo o store pc file (i + 1) fuel
              { st4 with
                old := st4.cur, cur := improved, prevIssues := issues,
                stats := stats2 }

def initialCoreState (old init : String) : CoreState :=
  { old := old, cur := init, prevIssues := [], allThreads := [],
    lastIssues := none, records := 0, criticCalls := 0, fixerCalls := 0,
    stats := zeroStats }

/-- Core `improve_code(pull_request_id, file_path, old, new, max_iterations,
..., post_comments)`. -/
def coreImprove (o : CoreOracles) (store : StoreOracle) (pc : Bool)
    (file old init : String) (maxIterations : Nat) : CoreRun :=
  coreGo o store pc file 1 maxIterations (initialCoreState old init)

/-! ## Helper lemmas -/

/-- Multiplicity of a key in a list of keys. -/
def countKey (k : String) : List String → Nat
  | [] => 0
  | x :: xs => (if x = k then 1 else 0) + countKey k xs

theorem countKey_append (k : String) (a b : List String) :
    countKey k (a ++ b) = countKey k a + countKey k b := by
  induction a with
  | nil => simp [countKey]
  | cons x xs ih => simp [countKey, ih]; omega

theorem countKey_eq_zero_of_not_mem {k : String} {l : List String}
    (h : k ∉ l) : countKey k l = 0 := by
  induction l with
  | nil => rfl
  | cons x xs ih =>
    simp only [List.mem_cons, not_or] at h
    simp [countKey, Ne.symm h.1, ih h.2]

theorem not_mem_of_countKey_eq_zero {k : String} {l : List String}
    (h : countKey k l = 0) : k ∉ l := by
  induction l with
  | nil => simp
  | cons x xs ih =>
    simp only [countKey] at h
    by_cases hx : x = k
    · simp [hx] at h
    · intro hm
      rcases List.mem_cons.mp hm with rfl | hm
      · exact hx rfl
      · exact ih (by omega) hm

/-- The inner flag loop returns `false` exactly when no current issue shares
the text. -/
theorem issueStillPresent_eq_false_iff (p : CIssue) (cur : List CIssue) :
    issueStillPresent p cur = false ↔ ∀ c ∈ cur, p.text ≠ c.text := by
  induction cur with
  | nil => simp [issueStillPresent]
  | cons c rest ih =>
    simp only [issueStillPresent]
    by_cases h : p.text = c.text
    · simp [h]
    · simp [h, ih]

theorem coreResolvedIssues_mem (prev cur : List CIssue) (p : CIssue) :
    p ∈ coreResolvedIssues prev cur ↔
      p ∈ prev ∧ ∀ c ∈ cur, p.text ≠ c.text := by
  induction prev with
  | nil => simp [coreResolvedIssues]
  | cons q rest ih =>
    simp only [coreResolvedIssues]
    by_cases h : issueStillPresent q cur = true
    · rw [if_pos h, ih]
      constructor
      · rintro ⟨hm, hall⟩
        exact ⟨List.mem_cons_of_mem _ hm, hall⟩
      · rintro ⟨hm, hall⟩
        rcases List.mem_cons.mp hm with rfl | hm
        · exact absurd ((issueStillPresent_eq_false_iff p cur).mpr hall)
            (by simp [h])
        · exact ⟨hm, hall⟩
    · rw [if_neg h]
      rw [Bool.not_eq_true] at h
      constructor
      · intro hm
        rcases List.mem_cons.mp hm with rfl | hm
        · exact ⟨List.mem_cons_self _ _,
            (issueStillPresent_eq_false_iff p cur).mp h⟩
        · obtain ⟨h1, h2⟩ := ih.mp hm
          exact ⟨List.mem_cons_of_mem _ h1, h2⟩
      · rintro ⟨hm, hall⟩
        rcases List.mem_cons.mp hm with rfl | hm
        · exact List.mem_cons_self _ _
        · exact List.mem_cons_of_mem _ (ih.mpr ⟨hm, hall⟩)

theorem topResolveList_mem (ths : List (String × Nat)) :
    ∀ cur res k, k ∈ topResolveList cur res ths ↔
      k ∈ ths.map Prod.fst ∧ k ∉ cur ∧ k ∉ res := by
  induction ths with
  | nil => simp [topResolveList]
  | cons kv rest ih =>
    intro cur res k
    obtain ⟨k0, v0⟩ := kv
    simp only [topResolveList]
    by_cases h : k0 ∉ cur ∧ k0 ∉ res
    · rw [if_pos h]
      constructor
      · intro hm
        rcases List.mem_cons.mp hm with rfl | hm
        · exact ⟨by simp, h.1, h.2⟩
        · obtain ⟨h1, h2, h3⟩ := (ih cur (res ++ [k0]) k).mp hm
          simp only [List.mem_append, List.mem_singleton, not_or] at h3
          exact ⟨by simp [h1], h2, h3.1⟩
      · rintro ⟨h1, h2, h3⟩
        by_cases hk : k = k0
        · subst hk; exact List.mem_cons_self _ _
        · apply List.mem_cons_of_mem
          apply (ih cur (res ++ [k0]) k).mpr
          refine ⟨?_, h2, ?_⟩
          · simpa [hk] using h1
          · simp [h3, hk]
    · rw [if_neg h]
      rw [ih cur res k]
      constructor
      · rintro ⟨h1, h2, h3⟩
        exact ⟨by simp [h1], h2, h3⟩
      · rintro ⟨h1, h2, h3⟩
        refine ⟨?_, h2, h3⟩
        rcases (by simpa using h1 : k = k0 ∨ k ∈ rest.map Prod.fst) with rfl | hm
        · exact absurd ⟨h2, h3⟩ h
        · exact hm

/-- Every issue emitted by the top-level scan carries the line number
computed from its own (bullet-only) text. -/
theorem extractIssuesTopGo_line (ls : List (List Char)) :
    ∀ sec issue, issue ∈ extractIssuesTopGo ls sec →
      issue.line = lineOfTextTop issue.text.data := by
  induction ls with
  | nil => intro sec issue h; simp [extractIssuesTopGo] at h
  | cons l rest ih =>
    intro sec issue h
    simp only [extractIssuesTopGo] at h
    split at h
    · exact ih _ _ h
    · split at h
      · rcases List.mem_cons.mp h with rfl | h
        · rfl
        · exact ih _ _ h
      · exact ih _ _ h

theorem flushCore_line_pos (sec txt : List Char) :
    ∀ issue ∈ flushCore sec txt, 0 < issue.line := by
  intro issue h
  unfold flushCore at h
  split at h
  · simp at h
  · split at h
    · rename_i n _
      split at h
      · simp at h
      · rename_i hn
        simp only [List.mem_singleton] at h
        subst h
        simpa using Nat.pos_of_ne_zero hn
    · simp at h

/-- Every issue emitted by the core scan has a positive line number (issues
whose accumulated text has no `line <n>` match, or match 0, are dropped). -/
theorem extractIssuesCoreGo_line_pos (ls : List (List Char)) :
    ∀ sec txt issue, issue ∈ extractIssuesCoreGo ls sec txt → 0 < issue.line := by
  induction ls with
  | nil =>
    intro sec txt issue h
    exact flushCore_line_pos sec txt issue h
  | cons l rest ih =>
    intro sec txt issue h
    simp only [extractIssuesCoreGo] at h
    split at h
    · exact ih _ _ _ h
    · split at h
      · rcases List.mem_append.mp h with h | h
        · exact flushCore_line_pos _ _ issue h
        · exact ih _ _ _ h
      · split at h
        · exact ih _ _ _ h
        · exact ih _ _ _ h

/-- When every issue's location already has a fetched thread, the per-issue
loop only adds comments: no thread is created. -/
theorem topPostIssues_no_create (store : StoreOracle)
    (existing : List (String × Nat)) (file : String) :
    ∀ issues map created stats,
      (∀ issue ∈ issues,
        (dictFind existing (tLocKey file issue.line)).isSome = true) →
      (topPostIssues store existing file issues map created stats).created =
        created := by
  intro issues
  induction issues with
  | nil => intro map created stats _; rfl
  | cons issue rest ih =>
    intro map created stats h
    have hhead := h issue (List.mem_cons_self _ _)
    simp only [topPostIssues]
    match hfind : dictFind existing (tLocKey file issue.line) with
    | none => rw [hfind] at hhead; simp at hhead
    | some tid =>
      simp only [hfind]
      exact ih _ _ _ (fun i hi => h i (List.mem_cons_of_mem _ hi))

/-- The resolved set and the marked keys computed by the resolution block do
not depend on the outcome of the remote calls: the set insertion happens
before the try/except around them. -/
theorem topResolveRemote_eq (store : StoreOracle) (ths : List (String × Nat)) :
    ∀ cur res stats,
      (topResolveRemote store ths cur res stats).1 =
        res ++ topResolveList cur res ths ∧
      (topResolveRemote store ths cur res stats).2.1 =
        topResolveList cur res ths := by
  induction ths with
  | nil => intro cur res stats; simp [topResolveRemote, topResolveList]
  | cons kv rest ih =>
    intro cur res stats
    obtain ⟨k, v⟩ := kv
    simp only [topResolveRemote, topResolveList]
    by_cases h : k ∉ cur ∧ k ∉ res
    · rw [if_pos h, if_pos h]
      constructor
      · rw [(ih cur (res ++ [k]) _).1]
        simp
      · rw [(ih cur (res ++ [k]) _).2]
    · rw [if_neg h, if_neg h]
      exact ih cur res stats

/-- A failing thread-list call makes the core posting method raise. -/
theorem corePost_listFail (store : StoreOracle) (stats : Stats)
    (file analysis : String) (iteration : Nat)
    (h : store.listOk stats.lists = false) :
    corePost store stats file analysis iteration = Except.error PyErr.remoteErr := by
  unfold corePost
  rw [h]
  rfl

/-- A failing summary-thread creation makes the core posting method raise. -/
theorem corePost_createFail (store : StoreOracle) (stats : Stats)
    (file analysis : String) (iteration : Nat)
    (hl : store.listOk stats.lists = true)
    (hc : store.createOk stats.creates = false) :
    corePost store stats file analysis iteration = Except.error PyErr.remoteErr := by
  unfold corePost
  rw [hl]
  simp only [if_true]
  rw [hc]
  rfl

theorem corePostIssues_allOk (store : StoreOracle) (hs : StoreAllOk store)
    (fetched : List RThread) (file : String) :
    ∀ issues map stats, ∃ m s,
      corePostIssues store fetched file issues map stats = Except.ok (m, s) := by
  intro issues
  induction issues with
  | nil => intro map stats; exact ⟨map, stats, rfl⟩
  | cons issue rest ih =>
    intro map stats
    simp only [corePostIssues]
    split
    · exact ih map stats
    · match hfind : coreFindThread file issue.line issue.sectionName fetched with
      | some tid =>
        simp only [hfind, (hs stats.comments).2.2.1, if_true]
        exact ih _ _
      | none =>
        simp only [hfind, (hs stats.creates).2.1, if_true]
        exact ih _ _

theorem corePost_allOk (store : StoreOracle) (hs : StoreAllOk store)
    (stats : Stats) (file analysis : String) (iteration : Nat) :
    ∃ m s, corePost store stats file analysis iteration = Except.ok (m, s) := by
  unfold corePost
  rw [(hs stats.lists).1]
  simp only [if_true]
  rw [(hs _).2.1]
  simp only [if_true]
  exact corePostIssues_allOk store hs _ file _ _ _

/-- The arity check at the `_apply_suggestions` call site always fails: two
arguments are passed where four are required. -/
theorem applyTop_eq (o : TopOracles) (cur : String) (sugs : List String) :
    applyTop o cur sugs = Except.error PyErr.typeErr := rfl

theorem topIterState_fields (o : TopOracles) (store : StoreOracle) (pc : Bool)
    (file old : String) (i : Nat) (st : TState) :
    (topIterState o store pc file old i st).1.criticCalls = st.criticCalls + 1 ∧
    (topIterState o store pc file old i st).1.fixesCompleted = st.fixesCompleted ∧
    (topIterState o store pc file old i st).1.cur = st.cur ∧
    (topIterState o store pc file old i st).2 = o.critic i old st.cur := by
  unfold topIterState
  dsimp only
  split <;> split <;> exact ⟨rfl, rfl, rfl, rfl⟩

theorem topFinish_fields (store : StoreOracle) (pc : Bool) (st : TState) :
    (topFinish store pc st).criticCalls = st.criticCalls ∧
    (topFinish store pc st).fixesCompleted = st.fixesCompleted := by
  unfold topFinish
  split <;> exact ⟨rfl, rfl⟩

theorem coreFinish_fields (st : CoreState) :
    (coreFinish st).criticCalls = st.criticCalls ∧
    (coreFinish st).fixerCalls = st.fixerCalls := by
  unfold coreFinish
  split <;> exact ⟨rfl, rfl⟩

/-- The top-level loop performs at most `fuel` further critic calls. -/
theorem topGo_critic (o : TopOracles) (store : StoreOracle) (pc : Bool)
    (file old : String) :
    ∀ fuel i st, (topGo o store pc file old i fuel st).criticCalls ≤
      st.criticCalls + fuel := by
  intro fuel
  induction fuel with
  | zero =>
    intro i st
    simp only [topGo]
    rw [(topFinish_fields store pc st).1]
    omega
  | succ f ih =>
    intro i st
    simp only [topGo]
    have hfields := topIterState_fields o store pc file old i st
    split
    · rw [(topFinish_fields store pc _).1]
      simp only [hfields.1]
      omega
    · rw [applyTop_eq]
      dsimp only
      simp only [hfields.1]
      omega

/-- The fixing step never completes in the top-level loop: the counter of
completed `_apply_suggestions` calls is never incremented, because the call
raises `TypeError` before the method body runs. -/
theorem topGo_fixes (o : TopOracles) (store : StoreOracle) (pc : Bool)
    (file old : String) :
    ∀ fuel i st, (topGo o store pc file old i fuel st).fixesCompleted =
      st.fixesCompleted := by
  intro fuel
  induction fuel with
  | zero =>
    intro i st
    simp only [topGo]
    rw [(topFinish_fields store pc st).2]
  | succ f _ =>
    intro i st
    simp only [topGo]
    have hfields := topIterState_fields o store pc file old i st
    split
    · rw [(topFinish_fields store pc _).2]
      simp only [hfields.2.1]
    · rw [applyTop_eq]
      dsimp only
      simp only [hfields.2.1]

/-- The core loop performs at most `fuel` further critic calls. -/
theorem coreGo_critic (o : CoreOracles) (store : StoreOracle) (pc : Bool)
    (file : String) :
    ∀ fuel i st, (coreGo o store pc file i fuel st).criticCalls ≤
      st.criticCalls + fuel := by
  intro fuel
  induction fuel with
  | zero =>
    intro i st
    simp only [coreGo]
    rw [(coreFinish_fields st).1]
    omega
  | succ f ih =>
    intro i st
    simp only [coreGo]
    split
    · dsimp only
      omega
    · split
      · rw [(coreFinish_fields _).1]
        dsimp only
        omega
      · split
        · rw [(coreFinish_fields _).1]
          dsimp only
          omega
        · split
          · dsimp only
            omega
          · calc (coreGo o store pc file (i + 1) f _).criticCalls
                ≤ _ + f := ih (i + 1) _
              _ ≤ st.criticCalls + (f + 1) := by dsimp only; omega

/-- Within one run of the block, no key is marked twice. -/
theorem topResolveList_count (ths : List (String × Nat)) :
    ∀ cur res k, countKey k (topResolveList cur res ths) ≤ 1 := by
  induction ths with
  | nil => intro cur res k; simp [topResolveList, countKey]
  | cons kv rest ih =>
    intro cur res k
    obtain ⟨k0, v0⟩ := kv
    simp only [topResolveList]
    split
    · simp only [countKey]
      by_cases hk : k0 = k
      · subst hk
        have hz : countKey k0 (topResolveList cur (res ++ [k0]) rest) = 0 := by
          apply countKey_eq_zero_of_not_mem
          intro hm
          have hnr := ((topResolveList_mem rest cur (res ++ [k0]) k0).mp hm).2.2
          simp at hnr
        simp [hz]
      · simp only [hk, if_false]
        have := ih cur (res ++ [k0]) k
        omega
    · exact ih cur res k

/-- Invariant of the whole-session replay: a key is marked at most once
across all iterations, and every marked key is in the resolved set. -/
theorem runResolveGo_count (iters : List (List String × List (String × Nat))) :
    ∀ i res ths log k, countKey k log ≤ 1 → (k ∈ log → k ∈ res) →
      countKey k (runResolveGo i iters res ths log).marked ≤ 1 ∧
      (k ∈ (runResolveGo i iters res ths log).marked →
        k ∈ (runResolveGo i iters res ths log).resolved) := by
  induction iters with
  | nil =>
    intro i res ths log k h1 h2
    exact ⟨h1, h2⟩
  | cons it rest ih =>
    intro i res ths log k h1 h2
    obtain ⟨cur, newTh⟩ := it
    simp only [runResolveGo]
    have hcm : countKey k (if 1 < i then topResolveList cur res ths else []) ≤ 1 := by
      split
      · exact topResolveList_count ths cur res k
      · simp [countKey]
    have hmr : k ∈ (if 1 < i then topResolveList cur res ths else []) → k ∉ res := by
      split
      · intro hmem
        exact ((topResolveList_mem ths cur res k).mp hmem).2.2
      · intro hmem
        simp at hmem
    apply ih
    · rw [countKey_append]
      by_cases hkm : k ∈ (if 1 < i then topResolveList cur res ths else [])
      · have hlog : countKey k log = 0 :=
          countKey_eq_zero_of_not_mem (fun hl => hmr hkm (h2 hl))
        omega
      · rw [countKey_eq_zero_of_not_mem hkm]
        omega
    · intro hl
      rcases List.mem_append.mp hl with hl | hl
      · exact List.mem_append_left _ (h2 hl)
      · exact List.mem_append_right _ hl

/-! ## Concrete oracles and inputs used by witnesses and counterexamples -/

def exStoreOk : StoreOracle :=
  ⟨fun _ => true, fun _ => [], fun _ => true, fun n => n, fun _ => true,
   fun _ => true⟩

theorem exStoreOk_allOk : StoreAllOk exStoreOk := fun _ => ⟨rfl, rfl, rfl, rfl⟩

def exStoreCreateFail : StoreOracle :=
  ⟨fun _ => true, fun _ => [], fun _ => false, fun n => n, fun _ => true,
   fun _ => true⟩

def exStoreAllFail : StoreOracle :=
  ⟨fun _ => false, fun _ => [], fun _ => false, fun n => n, fun _ => false,
   fun _ => false⟩

def exStoreWithThread : StoreOracle :=
  ⟨fun _ => true, fun _ => [⟨some "f", some 3, some "note", 7⟩], fun _ => true,
   fun n => n, fun _ => true, fun _ => true⟩

def exScenario : String :=
  "## Bugs\n- Null check missing on line 12\n## Style\n- Prefer snake_case on line 5"

def exC1Prev : CIssue := ⟨"Bugs", "Null check missing on line 12", 12⟩
def exC1Cur : CIssue := ⟨"Bugs", "Null pointer check missing on line 12", 12⟩

def exC4Top : String := "## Bugs\n- a\ncontinued on line 9"
def exC4Core : String := "## Bugs\n- broken on lines 7"

def exFence : String := "```\nfoo\n```"
def exOracleFence : TopOracles := ⟨fun _ _ _ => exFence, fun c => c⟩

def exDupAnalysis : String := "## Bugs\n- x line 3\n- x line 3"
def exLine3Analysis : String := "## Bugs\n- x line 3"

def exCoreCriticBug : CoreOracles := ⟨fun _ _ _ => exLine3Analysis, fun _ c _ => c⟩
def exCoreCriticClean : CoreOracles := ⟨fun _ _ _ => "all good", fun _ c _ => c⟩

/-! ## Claim theorems -/

/-- Claim C1 (counterexample): in the core module the claimed identity
`(file_path, line, category)` is not what reconciliation compares.  The two
issues below agree on section (category) and line — so under the claimed
identity they are the same issue and the resolved set should be empty — but
their descriptions differ, and the core reconciliation reports the previous
issue as resolved. -/
theorem c1_counterexample :
    exC1Prev.sectionName = exC1Cur.sectionName ∧ exC1Prev.line = exC1Cur.line ∧
    exC1Prev.text ≠ exC1Cur.text ∧
    coreResolvedIssues [exC1Prev] [exC1Cur] = [exC1Prev] :=
  ⟨rfl, rfl, by decide, by decide⟩

/-- Claim C1 (amended): the core reconciliation marks a previous issue
resolved exactly when no current issue has the same description text (so
identity is by description, not by `(file_path, line, category)`); an empty
previous set yields an empty resolved set; and in the top-level module the
keys newly marked in one resolution block are exactly the tracked thread
keys — built from `(file_path, line, section)` — that are neither current
nor already resolved. -/
theorem c1_amended_reconciliation :
    (∀ prev cur p, p ∈ coreResolvedIssues prev cur ↔
      (p ∈ prev ∧ ∀ c ∈ cur, p.text ≠ c.text)) ∧
    (∀ cur, coreResolvedIssues [] cur = []) ∧
    (∀ ths cur res k, k ∈ topResolveList cur res ths ↔
      (k ∈ ths.map Prod.fst ∧ k ∉ cur ∧ k ∉ res)) :=
  ⟨fun prev cur p => coreResolvedIssues_mem prev cur p, fun _ => rfl,
   fun ths cur res k => topResolveList_mem ths cur res k⟩

/-- Claim C1 (witness): the amended characterisation evaluated at the
counterexample pair and at an empty previous set. -/
theorem c1_witness :
    exC1Prev ∈ coreResolvedIssues [exC1Prev] [exC1Cur] ∧
    coreResolvedIssues [] [exC1Cur] = [] :=
  ⟨(c1_amended_reconciliation.1 [exC1Prev] [exC1Cur] exC1Prev).mpr
      ⟨by decide, by decide⟩,
   c1_amended_reconciliation.2.1 [exC1Cur]⟩

/-- Claim C2: for every behaviour of the critic, fixer, and remote store,
one call to `improve_code` invokes the review graph at most
`max_iterations` times, in both the core and the top-level module. -/
theorem c2_critic_bound (co : CoreOracles) (ot : TopOracles)
    (store : StoreOracle) (pc : Bool) (file old init : String) (n : Nat) :
    (coreImprove co store pc file old init n).criticCalls ≤ n ∧
    (topImprove ot store pc file old init n).criticCalls ≤ n := by
  constructor
  · have h := coreGo_critic co store pc file n 1 (initialCoreState old init)
    simpa [coreImprove, initialCoreState] using h
  · have h := topGo_critic ot store pc file old n 1 (initialTState init)
    simpa [topImprove, initialTState] using h

/-- Claim C3 (counterexample): in the top-level module an empty extracted
issue set does not short-circuit the session.  A critique consisting of one
fenced code block yields no issues, but a non-empty suggestion list, so the
loop proceeds to the fixing step and the session aborts with `TypeError`
instead of returning `all_resolved = true` after one iteration. -/
theorem c3_counterexample :
    extractIssuesTop exFence = [] ∧
    (topImprove exOracleFence exStoreOk true "f" "o" "n" 3).result =
      Except.error PyErr.typeErr :=
  ⟨by decide, by decide⟩

/-- Claim C3 (amended): in the core module the claim holds as stated — if
the first critique yields no extracted issues (and the remote calls
succeed), the session returns `all_issues_resolved = true` with
`iterations_completed = 1` and the fixer is never invoked. -/
theorem c3_amended_core_short_circuit (o : CoreOracles) (store : StoreOracle)
    (pc : Bool) (file old init : String) (n : Nat) (hn : 0 < n)
    (hs : StoreAllOk store)
    (hiss : extractIssuesCore (o.critic 1 old init) = []) :
    ∃ fin, (coreImprove o store pc file old init n).result = Except.ok fin ∧
      fin.iterationsCompleted = 1 ∧ fin.allIssuesResolved = true ∧
      (coreImprove o store pc file old init n).fixerCalls = 0 := by
  cases n with
  | zero => omega
  | succ f =>
    unfold coreImprove
    simp only [coreGo]
    cases pc with
    | false =>
      simp only [Bool.false_eq_true, if_false]
      dsimp only [initialCoreState]
      rw [hiss]
      simp [coreFinish]
    | true =>
      obtain ⟨m, s, hp⟩ :=
        corePost_allOk store hs zeroStats file (o.critic 1 old init) 1
      dsimp only [initialCoreState]
      rw [if_pos rfl, hp]
      dsimp only
      rw [hiss]
      simp [coreFinish]

/-- Claim C3 (witness): a critique with no issues at iteration 1, under an
all-succeeding store, returns after one iteration with everything resolved
and no fixer call. -/
theorem c3_witness :
    ∃ fin, (coreImprove exCoreCriticClean exStoreOk true "f" "o" "n" 3).result =
        Except.ok fin ∧
      fin.iterationsCompleted = 1 ∧ fin.allIssuesResolved = true ∧
      (coreImprove exCoreCriticClean exStoreOk true "f" "o" "n" 3).fixerCalls = 0 :=
  c3_amended_core_short_circuit exCoreCriticClean exStoreOk true "f" "o" "n" 3
    (by decide) exStoreOk_allOk (by decide)

/-- Claim C4 (counterexample): the top-level parser neither accumulates
continuation lines nor yields `None` when the token is absent — the bullet
`- a` with continuation `continued on line 9` parses to line 1, not 9 and
not `None`.  The core parser does not match the claimed `line(s)?` pattern:
`lines 7` finds no match and the issue is dropped entirely rather than kept
with an empty line field. -/
theorem c4_counterexample :
    extractIssuesTop exC4Top =
      [{ sectionName := "Bugs", text := "a", line := 1 }] ∧
    extractIssuesCore exC4Core = [] :=
  ⟨by decide, by decide⟩

/-- Claim C4 (amended): every issue the top-level parser emits carries the
line number obtained by searching its own bullet text for the
`line[s]? <int>` token; when the search fails the line defaults to 1 (never
`None`).  The core parser only emits issues whose accumulated text produced
a positive line number — issues without one are dropped, so no issue with an
absent line is ever emitted. -/
theorem c4_amended_line_extraction :
    (∀ s issue, issue ∈ extractIssuesTop s →
      issue.line = lineOfTextTop issue.text.data) ∧
    (∀ t, searchLineTop t = none → lineOfTextTop t = 1) ∧
    (∀ s issue, issue ∈ extractIssuesCore s → 0 < issue.line) := by
  refine ⟨?_, ?_, ?_⟩
  · intro s issue h
    exact extractIssuesTopGo_line (splitOnNl s.data) [] issue h
  · intro t h
    unfold lineOfTextTop
    rw [h]
    rfl
  · intro s issue h
    exact extractIssuesCoreGo_line_pos (splitOnNl s.data) [] [] issue h

/-- Claim C4 (witness): the amended statement evaluated at concrete inputs:
the bullet `- a` got line `lineOfTextTop "a" = 1`, and a text with no token
defaults to 1. -/
theorem c4_witness :
    ({ sectionName := "Bugs", text := "a", line := 1 } : TIssue).line =
      lineOfTextTop (({ sectionName := "Bugs", text := "a", line := 1 } : TIssue).text.data) ∧
    lineOfTextTop "broken".data = 1 :=
  ⟨c4_amended_line_extraction.1 exC4Top _ (by decide),
   c4_amended_line_extraction.2.1 "broken".data (by decide)⟩

/-- Claim C5: evaluation of both `_extract_issues` implementations on the
spec's scenario text.  The top-level parser returns the claimed result —
`(Bugs, 12)` then `(Style, 5)` — but the core parser mis-attributes the
first bullet: it flushes the pending bullet only after the `## Style`
header has already replaced the current category, so both issues come out
under `Style`, contradicting the claim (and the intent evidenced by the
top-level implementation and the core docstring). -/
theorem c5_scenario_eval :
    extractIssuesCore exScenario =
      [{ sectionName := "Style", text := "Null check missing on line 12", line := 12 },
       { sectionName := "Style", text := "Prefer snake_case on line 5", line := 5 }] ∧
    (extractIssuesTop exScenario).map (fun i => (i.sectionName, i.line)) =
      [("Bugs", 12), ("Style", 5)] :=
  ⟨by decide, by decide⟩

/-- Claim C6 (counterexample): two issues with the same identity key in one
critique produce two distinct live threads: the location index is built only
from the threads fetched at the start of the call, and threads created
during the call are not added to it, so the second `- x line 3` bullet
creates thread 2 although thread 1 was just created for the same key. -/
theorem c6_counterexample :
    (topPost exStoreOk zeroStats "f" exDupAnalysis 1).created =
      [(tKey "f" 3 "Bugs", 1), (tKey "f" 3 "Bugs", 2)] := by decide

/-- Claim C6 (amended): reuse works only against the remote threads fetched
at the start of the call, keyed by `(file_path, line)`: when every issue's
location already has a fetched thread, the call creates no thread at all
(each issue posts a follow-up comment on the existing thread). -/
theorem c6_amended_reuse (store : StoreOracle) (stats0 : Stats)
    (file analysis : String) (iteration : Nat)
    (h : ∀ issue ∈ extractIssuesTop analysis,
      (dictFind (topFetchExisting store stats0 file)
        (tLocKey file issue.line)).isSome = true) :
    (topPost store stats0 file analysis iteration).created = [] := by
  unfold topPost
  exact topPostIssues_no_create store _ file _ [] [] _ h

/-- Claim C6 (witness): with a fetched thread at `f:3`, an issue at line 3
reuses it and nothing is created. -/
theorem c6_witness :
    (topPost exStoreWithThread zeroStats "f" exLine3Analysis 1).created = [] :=
  c6_amended_reuse exStoreWithThread zeroStats "f" exLine3Analysis 1 (by decide)

/-- Claim C7: across all iterations of a session, the per-iteration
resolution block issues the mark-as-fixed update for each issue key at most
once: the block checks the engine's own resolved-keys set (no remote state
is consulted) and inserts the key before the remote call, so later
iterations skip it. -/
theorem c7_mark_once (iters : List (List String × List (String × Nat)))
    (k : String) :
    countKey k (runResolve iters).marked ≤ 1 :=
  (runResolveGo_count iters 1 [] [] [] k (by simp [countKey]) (by simp)).1

/-- Claim C8: if, at any iteration of the core loop, the fixer returns
content equal to its input (while issues remain and the remote calls
succeed), the session ends at that iteration with
`all_issues_resolved = false`, having made exactly one more critic call (so
the critic is never invoked again) and exactly one more fixer call. -/
theorem c8_stall_stops (o : CoreOracles) (store : StoreOracle) (pc : Bool)
    (file : String) (i f : Nat) (st : CoreState)
    (hs : StoreAllOk store)
    (hmark : hasInfixStr noSuggestionsMarker (o.critic i st.old st.cur) = false)
    (hiss : (extractIssuesCore (o.critic i st.old st.cur)).isEmpty = false)
    (hfix : o.fixer i st.cur (o.critic i st.old st.cur) = st.cur) :
    ∃ fin, (coreGo o store pc file i (f + 1) st).result = Except.ok fin ∧
      fin.allIssuesResolved = false ∧
      (coreGo o store pc file i (f + 1) st).criticCalls = st.criticCalls + 1 ∧
      (coreGo o store pc file i (f + 1) st).fixerCalls = st.fixerCalls + 1 := by
  simp only [coreGo]
  cases pc with
  | false =>
    simp only [Bool.false_eq_true, if_false]
    rw [hmark, hiss]
    simp only [Bool.or_self, Bool.false_eq_true, if_false]
    rw [hfix]
    simp only [if_pos rfl]
    simp [coreFinish, hiss]
  | true =>
    obtain ⟨m, s, hp⟩ :=
      corePost_allOk store hs st.stats file (o.critic i st.old st.cur) i
    rw [if_pos rfl, hp]
    rw [hmark, hiss]
    simp only [Bool.or_self, Bool.false_eq_true, if_false]
    rw [hfix]
    simp only [if_pos rfl]
    simp [coreFinish, hiss]

/-- Claim C8 (witness): a fixer that always returns its input stalls the
session at iteration 1: result is returned (not raised), nothing is
resolved, one critic call, one fixer call. -/
theorem c8_witness :
    ∃ fin, (coreGo exCoreCriticBug exStoreOk true "f" 1 3
        (initialCoreState "o" "n")).result = Except.ok fin ∧
      fin.allIssuesResolved = false ∧
      (coreGo exCoreCriticBug exStoreOk true "f" 1 3
        (initialCoreState "o" "n")).criticCalls = 1 ∧
      (coreGo exCoreCriticBug exStoreOk true "f" 1 3
        (initialCoreState "o" "n")).fixerCalls = 1 :=
  c8_stall_stops exCoreCriticBug exStoreOk true "f" 1 2 (initialCoreState "o" "n")
    exStoreOk_allOk (by decide) (by decide) rfl

/-- Claim C9 (counterexample): a remote-call failure is fatal to a core
session: with a store whose thread creation raises, `improve_code` aborts
with the propagated remote error during the first iteration's comment
posting, instead of logging and continuing. -/
theorem c9_counterexample :
    (coreImprove exCoreCriticBug exStoreCreateFail true "f" "o" "n" 3).result =
      Except.error PyErr.remoteErr := by decide

/-- Claim C9 (amended): in the top-level module the resolution block's
ledger updates are independent of the remote outcome — the resolved set
after the block equals the previous set plus the newly marked keys for
every store behaviour, because the set is updated before the guarded remote
calls (so a failed update is not retried later).  In the core module,
however, a failing thread-list call or a failing summary-thread creation
inside `_post_review_comments_to_pr` raises and aborts the session. -/
theorem c9_amended_failure_semantics :
    (∀ store ths cur res stats,
      (topResolveRemote store ths cur res stats).1 =
        res ++ topResolveList cur res ths) ∧
    (∀ (store : StoreOracle) stats (file analysis : String) (iteration : Nat),
      store.listOk stats.lists = false →
      corePost store stats file analysis iteration =
        Except.error PyErr.remoteErr) ∧
    (∀ (store : StoreOracle) stats (file analysis : String) (iteration : Nat),
      store.listOk stats.lists = true → store.createOk stats.creates = false →
      corePost store stats file analysis iteration =
        Except.error PyErr.remoteErr) :=
  ⟨fun store ths cur res stats => (topResolveRemote_eq store ths cur res stats).1,
   fun store stats file analysis iteration h =>
     corePost_listFail store stats file analysis iteration h,
   fun store stats file analysis iteration hl hc =>
     corePost_createFail store stats file analysis iteration hl hc⟩

/-- Claim C9 (witness): under an all-failing store the resolution block
still moves the key into the resolved set, and a core posting call with a
failing store raises. -/
theorem c9_witness :
    (topResolveRemote exStoreAllFail [("k", 5)] [] [] zeroStats).1 =
      [] ++ topResolveList [] [] [("k", 5)] ∧
    corePost exStoreAllFail zeroStats "f" "x" 1 =
      Except.error PyErr.remoteErr :=
  ⟨c9_amended_failure_semantics.1 exStoreAllFail [("k", 5)] [] [] zeroStats,
   c9_amended_failure_semantics.2.1 exStoreAllFail zeroStats "f" "x" 1 rfl⟩

/-- Claim C10: in the top-level module the fixing step can never complete —
the counter of completed `_apply_suggestions` calls is always 0 — and
whenever the first iteration extracts a non-empty suggestion list, the call
`self._apply_suggestions(current_content, suggestions)` (two arguments for
four mandatory parameters) raises `TypeError` and the session aborts with
it. -/
theorem c10_apply_type_error (o : TopOracles) (store : StoreOracle) (pc : Bool)
    (file old init : String) (n : Nat) :
    (topImprove o store pc file old init n).fixesCompleted = 0 ∧
    (0 < n → (extractCodeSuggestions (o.critic 1 old init)).isEmpty = false →
      (topImprove o store pc file old init n).result =
        Except.error PyErr.typeErr) := by
  constructor
  · have h := topGo_fixes o store pc file old n 1 (initialTState init)
    simpa [topImprove, initialTState] using h
  · intro hn hsugs
    cases n with
    | zero => omega
    | succ f =>
      unfold topImprove
      simp only [topGo]
      have h2 : (topIterState o store pc file old 1 (initialTState init)).2 =
          o.critic 1 old init :=
        (topIterState_fields o store pc file old 1 (initialTState init)).2.2.2
      rw [h2, hsugs]
      simp only [Bool.false_eq_true, if_false]
      rw [applyTop_eq]

/-- Claim C10 (witness): a critique containing one fenced code block has a
non-empty suggestion list, and the session aborts with `TypeError`; the
fix counter stays 0. -/
theorem c10_witness :
    (topImprove exOracleFence exStoreOk false "f" "o" "n" 3).fixesCompleted = 0 ∧
    (topImprove exOracleFence exStoreOk false "f" "o" "n" 3).result =
      Except.error PyErr.typeErr :=
  ⟨(c10_apply_type_error exOracleFence exStoreOk false "f" "o" "n" 3).1,
   (c10_apply_type_error exOracleFence exStoreOk false "f" "o" "n" 3).2
     (by decide) (by decide)⟩
